import Mathlib

/-!
Verification of the ofxclient / yofx OFX client library.

The Lean definitions below are shallow embeddings of the Python source in
`src/ofxclient` and `src/yofx`: pure string/byte manipulation is translated
directly, exceptions become `Except`/`Option`, and Python's mutable `Client`
object becomes explicit state passing.  Calls into the Python standard
library (`decimal.Decimal`, `datetime.strptime`/`strftime`, `re` patterns,
codecs) are modelled by executable Lean functions whose doc comments state
the modelled subset.
-/

namespace Ofx

/-! ## Decimal normalizer (`ofxclient/parse.py`, `to_decimal`)

`to_decimal` receives the stripped text of a tag and applies, in order:

1. `if re.search(r".*\..*,", d): d = d.replace(".", "")`
2. `if re.search(r".*,.*\.", d): d = d.replace(",", "")`
3. `if "." not in d and "," in d: d = d.replace(",", ".")`
4. `d = d.replace(" ", "")`
5. `d = d.replace("+", "")`

and finally parses with `decimal.Decimal(d)` (raising
`decimal.InvalidOperation` when the string is not a valid decimal literal).

In the two `re.search` conditions the `.` metacharacter does not match a
newline, so the condition holds exactly when the string contains the first
separator character and, later with no intervening newline, the second. -/

/-- Search helper: a `,` occurs before any `'\n'` in the list. -/
def commaNoNl : List Char → Bool
  | [] => false
  | c :: cs => c == ',' || (c != '\n' && commaNoNl cs)

/-- Model of `re.search(r".*\..*,", d)`: some `.` is followed (newline-free)
by a later `,`. -/
def dotThenComma : List Char → Bool
  | [] => false
  | c :: cs => (c == '.' && commaNoNl cs) || dotThenComma cs

/-- Search helper: a `.` occurs before any `'\n'` in the list. -/
def dotNoNl : List Char → Bool
  | [] => false
  | c :: cs => c == '.' || (c != '\n' && dotNoNl cs)

/-- Model of `re.search(r".*,.*\.", d)`: some `,` is followed (newline-free)
by a later `.`. -/
def commaThenDot : List Char → Bool
  | [] => false
  | c :: cs => (c == ',' && dotNoNl cs) || commaThenDot cs

/-- Steps 1-5 of `to_decimal`: thousands-separator stripping, decimal-comma
conversion, space and plus removal (each `str.replace` removes or maps every
occurrence). -/
def cleanDecChars (l : List Char) : List Char :=
  let d1 := if dotThenComma l then l.filter (fun c => c != '.') else l
  let d2 := if commaThenDot d1 then d1.filter (fun c => c != ',') else d1
  let d3 :=
    if !(d2.contains '.') && d2.contains ',' then
      d2.map (fun c => if c == ',' then '.' else c)
    else d2
  let d4 := d3.filter (fun c => c != ' ')
  d4.filter (fun c => c != '+')

/-- Value of a Python `decimal.Decimal` as stored from a plain literal:
sign, integer coefficient and number of fractional digits
(`as_tuple()` exponent is `-nfrac`). -/
structure Dec where
  neg : Bool
  coeff : Nat
  nfrac : Nat
deriving DecidableEq, Repr

/-- Numeric value of a `Dec` as an exact rational. -/
def Dec.val (d : Dec) : ℚ :=
  (if d.neg then -1 else 1) * (d.coeff : ℚ) / (10 : ℚ) ^ d.nfrac

/-- Accumulate a decimal digit list into a natural number. -/
def digitsToNat (l : List Char) : Nat :=
  l.foldl (fun a c => a * 10 + (c.toNat - 48)) 0

/-- Optional leading sign of a decimal literal. -/
def splitSign : List Char → Bool × List Char
  | [] => (false, [])
  | c :: r =>
      if c == '-' then (true, r)
      else if c == '+' then (false, r)
      else (false, c :: r)

/-- Model of `decimal.Decimal(str)` restricted to plain finite decimal
literals: optional sign, digits with at most one point and at least one
digit.  Exponent notation, `NaN`/`Infinity` and surrounding whitespace are
outside the embedded subset (none are produced by the cleaning steps on the
claims' inputs). -/
def parseDecD (l : List Char) : Option Dec :=
  let s := splitSign l
  let ip := s.2.takeWhile Char.isDigit
  match s.2.drop ip.length with
  | [] => if ip.isEmpty then none else some ⟨s.1, digitsToNat ip, 0⟩
  | '.' :: fp =>
      if fp.all Char.isDigit && (!ip.isEmpty || !fp.isEmpty) then
        some ⟨s.1, digitsToNat (ip ++ fp), fp.length⟩
      else none
  | _ => none

/-- The decimal normalizer `to_decimal` on the stripped tag text (the source
takes the tag and first does `tag.contents[0].strip()`; the embedding takes
that stripped string).  `none` is `decimal.InvalidOperation`. -/
def to_decimal (s : String) : Option Dec :=
  parseDecD (cleanDecChars s.data)

/-- Normalized rational value produced by `to_decimal`. -/
def to_decimal_rat (s : String) : Option ℚ :=
  (to_decimal s).map Dec.val

/-- Decimal digit character of `k < 10`. -/
def digitChar (k : Nat) : Char := Char.ofNat (48 + k)

/-- Digit list of a natural number (`fuel`-bounded helper; `fuel ≥ n`
suffices). -/
def natToDigitsAux : Nat → Nat → List Char
  | 0, _ => []
  | fuel + 1, n =>
      if n = 0 then [] else natToDigitsAux fuel (n / 10) ++ [digitChar (n % 10)]

/-- Decimal digit string of a natural number, most significant first. -/
def natToDigits (n : Nat) : List Char :=
  if n = 0 then ['0'] else natToDigitsAux n n

/-- Model of `str(decimal.Decimal)` on a plain finite decimal: the
coefficient digits, left-padded with zeros to reach at least one integer
digit, with the point inserted before the last `nfrac` digits and a leading
minus for a negative sign (Python renders these values without exponent
notation). -/
def renderDec (d : Dec) : List Char :=
  let s := natToDigits d.coeff
  let s := List.replicate (d.nfrac + 1 - s.length) '0' ++ s
  let ip := s.take (s.length - d.nfrac)
  let fp := s.drop (s.length - d.nfrac)
  (if d.neg then ['-'] else []) ++ (if d.nfrac = 0 then ip else ip ++ '.' :: fp)

/-- Model of the `TRNAMT` handling in `ofxclient/parse.py`
`parse_transaction` (lines 953-969): `to_decimal` is attempted and
`decimal.InvalidOperation` is caught; the literal tokens `null` and `-null`
become amount `0`, anything else unparseable is a
`ValueError("Invalid Transaction Amount ...")`. -/
def parse_trnamt (s : String) : Except String ℚ :=
  match to_decimal_rat s with
  | some v => .ok v
  | none =>
      if s = "null" || s = "-null" then .ok 0
      else .error ("Invalid Transaction Amount: " ++ s)

/-! ## Date normalizer (`ofxclient/helpers.py` `to_ofx_date` /
`from_ofx_date`, `ofxclient/parse.py` `parse_ofx_date`) -/

/-- Fields of a naive `datetime.datetime` (microsecond included;
`strptime` with `"%Y%m%d%H%M%S"` always yields microsecond 0). -/
structure DateTime where
  year : Nat
  month : Nat
  day : Nat
  hour : Nat
  minute : Nat
  second : Nat
  usec : Nat
deriving DecidableEq, Repr

/-- Length of a month with the Gregorian leap-year rule, as validated by
`datetime.datetime`. -/
def daysInMonth (y m : Nat) : Nat :=
  if m = 2 then
    if y % 4 = 0 ∧ (y % 100 ≠ 0 ∨ y % 400 = 0) then 29 else 28
  else if m = 4 ∨ m = 6 ∨ m = 9 ∨ m = 11 then 30 else 31

/-- A field assignment `datetime.datetime` accepts.  CPython documents
`strftime` as unsupported for years before 1000 (its output there is
platform-defined), so validity also requires a four-digit year. -/
def validDateTime (d : DateTime) : Prop :=
  1000 ≤ d.year ∧ d.year ≤ 9999 ∧ 1 ≤ d.month ∧ d.month ≤ 12 ∧
    1 ≤ d.day ∧ d.day ≤ daysInMonth d.year d.month ∧
    d.hour ≤ 23 ∧ d.minute ≤ 59 ∧ d.second ≤ 59 ∧ d.usec ≤ 999999

instance (d : DateTime) : Decidable (validDateTime d) := by
  unfold validDateTime; infer_instance

/-- Two-digit zero-padded `strftime` field. -/
def pad2 (n : Nat) : List Char := [digitChar (n / 10 % 10), digitChar (n % 10)]

/-- Four-digit zero-padded `strftime` `%Y` field (exact for years
1000-9999). -/
def pad4 (n : Nat) : List Char :=
  [digitChar (n / 1000 % 10), digitChar (n / 100 % 10),
    digitChar (n / 10 % 10), digitChar (n % 10)]

/-- `to_ofx_date` (`helpers.py`): `date.strftime("%Y%m%d%H%M%S")`, the
14-character timestamp with no fractional part and no timezone bracket. -/
def to_ofx_date (d : DateTime) : String :=
  String.mk (pad4 d.year ++ pad2 d.month ++ pad2 d.day ++ pad2 d.hour ++
    pad2 d.minute ++ pad2 d.second)

/-- Value of `float` on a `[-+]?\d+\.?\d*` literal. -/
def parseSignedFloat (l : List Char) : Option ℚ :=
  let s := splitSign l
  let ip := s.2.takeWhile Char.isDigit
  if ip.isEmpty then none
  else
    let sgn : ℚ := if s.1 then -1 else 1
    match s.2.drop ip.length with
    | [] => some (sgn * digitsToNat ip)
    | c :: fp =>
        if c = '.' && fp.all Char.isDigit then
          some (sgn * ((digitsToNat ip : ℚ) +
            (digitsToNat fp : ℚ) / (10 : ℚ) ^ fp.length))
        else none

/-- Backward scan of the trailing `\[num\:\w*\]` group over the reversed
character list with the final `]` already removed. -/
def findTzRev : List Char → Option ℚ
  | [] => none
  | c :: rest =>
      if c = ']' then
        match rest.dropWhile (fun x => x.isAlphanum || x == '_') with
        | [] => none
        | c2 :: rest2 =>
            if c2 = ':' then
              let numRev := rest2.takeWhile (fun x => x != '[')
              match rest2.drop numRev.length with
              | [] => none
              | c3 :: _ =>
                  if c3 = '[' then parseSignedFloat numRev.reverse else none
            else none
      else none

/-- Model of `re.search(r"\[(?P<tz>[-+]?\d+\.?\d*)\:\w*\]$", s)` and
`float(res.group("tz"))`: an offset in hours from a trailing bracketed
`number:word` group. -/
def findTz (s : String) : Option ℚ := findTzRev s.data.reverse

/-- Continuation of the fractional-second search after the leading digit
run: a literal `.` followed by the up-to-five captured digits. -/
def findFracAfter : List Char → Option ℚ
  | [] => none
  | c :: rest =>
      if c = '.' then
        let fs := (rest.takeWhile Char.isDigit).take 5
        some ((digitsToNat fs : ℚ) / (10 : ℚ) ^ fs.length)
      else none

/-- Model of `re.search(r"^[0-9]*\.([0-9]{0,5})", s)` and
`float("0." + res.group(1))`: fractional seconds captured after the leading
digit run. -/
def findFrac (s : String) : Option ℚ :=
  findFracAfter (s.data.drop (s.data.takeWhile Char.isDigit).length)

/-- Model of `datetime.strptime(s[:14], "%Y%m%d%H%M%S")`: a 14-character
all-digit prefix parsed fixed-width and validated against `datetime`'s
field ranges.  (On 9-13 digit inputs the CPython parser can match
variable-width fields; such inputs are outside the embedded subset and
treated as non-matching — none arise in the claims' domains, where inputs
either carry 14 digits or fail on an invalid `00` month.)  The `.error`
case is `ValueError`. -/
def strptime14L : List Char → Except String DateTime
  | y1 :: y2 :: y3 :: y4 :: o1 :: o2 :: d1 :: d2 ::
      h1 :: h2 :: i1 :: i2 :: e1 :: e2 :: _ =>
      if ([y1, y2, y3, y4, o1, o2, d1, d2, h1, h2, i1, i2,
          e1, e2].all Char.isDigit) then
        let dv := fun (c : Char) => c.toNat - 48
        let y := ((dv y1 * 10 + dv y2) * 10 + dv y3) * 10 + dv y4
        let mo := dv o1 * 10 + dv o2
        let da := dv d1 * 10 + dv d2
        let h := dv h1 * 10 + dv h2
        let mi := dv i1 * 10 + dv i2
        let se := dv e1 * 10 + dv e2
        if 1 ≤ y ∧ 1 ≤ mo ∧ mo ≤ 12 ∧ 1 ≤ da ∧ da ≤ daysInMonth y mo ∧
            h ≤ 23 ∧ mi ≤ 59 ∧ se ≤ 59 then
          .ok ⟨y, mo, da, h, mi, se, 0⟩
        else .error "time data does not match format"
      else .error "time data does not match format"
  | _ => .error "time data does not match format"

/-- `datetime.strptime(s[:14], "%Y%m%d%H%M%S")` is the 14-element prefix
parse `strptime14L` (slicing keeps the first 14 characters, which the
prefix pattern consumes). -/
def strptime14 (s : String) : Except String DateTime := strptime14L s.data

def strptime8L : List Char → Except String DateTime
  | y1 :: y2 :: y3 :: y4 :: o1 :: o2 :: d1 :: d2 :: _ =>
      if ([y1, y2, y3, y4, o1, o2, d1, d2].all Char.isDigit) then
        let dv := fun (c : Char) => c.toNat - 48
        let y := ((dv y1 * 10 + dv y2) * 10 + dv y3) * 10 + dv y4
        let mo := dv o1 * 10 + dv o2
        let da := dv d1 * 10 + dv d2
        if 1 ≤ y ∧ 1 ≤ mo ∧ mo ≤ 12 ∧ 1 ≤ da ∧ da ≤ daysInMonth y mo then
          .ok ⟨y, mo, da, 0, 0, 0, 0⟩
        else .error "time data does not match format"
      else .error "time data does not match format"
  | _ => .error "time data does not match format"

/-- Model of `datetime.strptime(s[:8], "%Y%m%d")`, fixed-width like
`strptime14`. -/
def strptime8 (s : String) : Except String DateTime := strptime8L s.data

/-- Result of the date normalizer: Python evaluates
`local_date - tz_offset + msec`; the embedding keeps the parsed civil
`datetime` together with the rational shift `msec - 3600·tz` in seconds
(the pair denotes that shifted instant, and a zero shift is the parsed
`datetime` itself). -/
abbrev OfxDate := DateTime × ℚ

/-- `from_ofx_date` (`ofxclient/helpers.py` lines 12-46); the optional
caller-supplied alternate `format` is not exercised, so the default
`"%Y%m%d"` fallback is embedded.  When the 14-character parse fails and the
leading 8 characters are `00000000`, the source re-raises the
`ValueError`. -/
def from_ofx_date (s : String) : Except String OfxDate :=
  let tz : ℚ := (findTz s).getD 0
  let fr : ℚ := (findFrac s).getD 0
  match strptime14 s with
  | .ok d => .ok (d, fr - 3600 * tz)
  | .error e =>
      if s.data.take 8 = ("00000000" : String).data then .error e
      else
        match strptime8 s with
        | .ok d => .ok (d, fr - 3600 * tz)
        | .error e2 => .error e2

/-- `parse_ofx_date` (`ofxclient/parse.py` lines 410-444): identical to
`from_ofx_date` except that the `00000000` sentinel returns `None` instead
of re-raising. -/
def parse_ofx_date (s : String) : Except String (Option OfxDate) :=
  let tz : ℚ := (findTz s).getD 0
  let fr : ℚ := (findFrac s).getD 0
  match strptime14 s with
  | .ok d => .ok (some (d, fr - 3600 * tz))
  | .error _ =>
      if s.data.take 8 = ("00000000" : String).data then .ok none
      else
        match strptime8 s with
        | .ok d => .ok (some (d, fr - 3600 * tz))
        | .error e2 => .error e2

/-! ## Transport/retry policy (`ofxclient/client.py`, `Client.post` and
`Client._do_post`) -/

/-- The response `requests` hands back for one POST (after its automatic
redirect following): final status code, optional `Set-Cookie` header and
decoded text body. -/
structure HttpResponse where
  status : Nat
  setCookie : Option String
  body : String

/-- `requests.Response.raise_for_status` raises `HTTPError` exactly for
4xx and 5xx status codes. -/
def raiseForStatus (r : HttpResponse) : Bool :=
  decide (400 ≤ r.status) && decide (r.status < 600)

/-- `Client._do_post` (lines 259-311) in terms of the response the HTTP
library delivers: when the status is not 200 it calls `raise_for_status`,
so 4xx/5xx statuses raise; otherwise the response and its text body are
returned. -/
def do_post (r : HttpResponse) : Except String (HttpResponse × String) :=
  if r.status ≠ 200 ∧ raiseForStatus r = true then .error "HTTPError"
  else .ok (r, r.body)

/-- Trace of one `Client.post` call: the parser input it produces (or the
transport error), the number of HTTP POSTs issued, and the session cookie
carried by the retry (`requests.Session` stores the first response's
`Set-Cookie` and attaches it to the next request). -/
structure PostTrace where
  result : Except String String
  posts : Nat
  retryCookie : Option String
deriving Repr

/-- `Client.post` (lines 234-251): one `_do_post`; when the returned body
is zero-length and a `Set-Cookie` response header is present, exactly one
retry through the same session, whose body is handed to the parser as-is;
otherwise the first body is handed over.  `server n` is the response the
institution returns to the `n`-th POST of this call. -/
def post (server : Nat → HttpResponse) : PostTrace :=
  match do_post (server 0) with
  | .error e => ⟨.error e, 1, none⟩
  | .ok (r0, ofxData) =>
      if ofxData.length = 0 ∧ r0.setCookie.isSome then
        match do_post (server 1) with
        | .error e => ⟨.error e, 2, r0.setCookie⟩
        | .ok (_, ofxData2) => ⟨.ok ofxData2, 2, r0.setCookie⟩
      else ⟨.ok ofxData, 1, none⟩

/-! ## Message builder (`ofxclient/client.py`: `Client.__init__`,
`Client.next_cookie`, `Client._message`, `Client._bare_request`) -/

/-- Mutable `Client` session state the message builder can touch: the
message counter `self.cookie`. -/
structure ClientState where
  cookie : Nat
deriving DecidableEq, Repr

/-- `Client.__init__` seeds the counter: `self.cookie = 3`. -/
def clientInit : ClientState := ⟨3⟩

/-- `Client.next_cookie` (lines 313-315): increment the counter and return
it as a string. -/
def next_cookie (c : ClientState) : ClientState × String :=
  (⟨c.cookie + 1⟩, toString (c.cookie + 1))

/-- `Client._message` (lines 433-446).  `uid` is the value of the
`ofx_uid()` call in the f-string; `ofx_uid` is imported from `helpers` but
is not under `src/` — modelled from the spec: a freshly generated random
unique identifier, supplied here by the caller once per message.  The
method reads no other `Client` state, so the state passes through
unchanged. -/
def message (c : ClientState) (msgType trnType request uid : String) :
    ClientState × String :=
  (c,
    "\n<" ++ msgType ++ "MSGSRQV1>\n    <" ++ trnType ++ "TRNRQ>\n" ++
    "        <TRNUID>" ++ uid ++ "</TRNUID>\n        " ++ request ++
    "\n    </" ++ trnType ++ "TRNRQ>\n</" ++ msgType ++ "MSGSRQV1>\n")

/-- The `STMRQ` payload string of `Client._bare_request` (lines 366-385). -/
def stmrq (accountId : String) (startDate : DateTime)
    (accountType bankId : String) : String :=
  "\n<STMRQ>\n    <BANKACCTFROM>\n        <BANKID>" ++ bankId ++
    "</BANKID>\n        <ACCTID>" ++ accountId ++
    "</ACCTID>\n        <ACCTTYPE>" ++ accountType ++
    "</ACCTTYPE>\n    </BANKACCTFROM>\n    <INCTRAN>\n        <DSTART>" ++
    to_ofx_date startDate ++
    "</DSTART>\n        <INCLUDE>Y</INCLUDE>\n    </INCTRAN>\n</STMRQ>\n"

/-- `Client._bare_request` (lines 366-386): build the `STMRQ` body and
wrap it as a `BANK`/`STMT` message. -/
def bare_request (c : ClientState) (accountId : String)
    (startDate : DateTime) (accountType bankId uid : String) :
    ClientState × String :=
  message c "BANK" "STMT" (stmrq accountId startDate accountType bankId) uid

/-- The needle occurs at the head of the haystack. -/
def startsAt : List Char → List Char → Bool
  | [], _ => true
  | _ :: _, [] => false
  | n :: ns, h :: hs => n == h && startsAt ns hs

/-- The needle occurs somewhere in the haystack (Python `in` on
strings). -/
def hasSub : List Char → List Char → Bool
  | [], needle => needle.isEmpty
  | h :: t, needle => startsAt needle (h :: t) || hasSub t needle

/-- Characters following the first occurrence of the needle. -/
def afterSub : List Char → List Char → Option (List Char)
  | [], needle => if needle.isEmpty then some [] else none
  | h :: t, needle =>
      if startsAt needle (h :: t) then some ((h :: t).drop needle.length)
      else afterSub t needle

/-- Characters before the first occurrence of the needle. -/
def beforeSub : List Char → List Char → Option (List Char)
  | [], needle => if needle.isEmpty then some [] else none
  | h :: t, needle =>
      if startsAt needle (h :: t) then some []
      else (beforeSub t needle).map (h :: ·)

/-- Content of the first `<tag>...</tag>` span in a message body. -/
def tagContent (body tag : String) : Option String :=
  match afterSub body.data ("<" ++ tag ++ ">").data with
  | none => none
  | some rest =>
      match beforeSub rest ("</" ++ tag ++ ">").data with
      | none => none
      | some content => some (String.mk content)

/-! ## Record extraction (`yofx/parse.py`: `extract_contents`,
`parse_transaction`) -/

/-- An `xml.etree.ElementTree.Element`: tag, text before the first child
element, and child elements. -/
inductive XNode where
  | mk (tag : String) (text : Option String) (children : List XNode)

/-- Tag name of an element. -/
def XNode.tag : XNode → String
  | .mk t _ _ => t

/-- Text of an element (`None` when absent). -/
def XNode.text : XNode → Option String
  | .mk _ t _ => t

/-- Child elements, in document order. -/
def XNode.children : XNode → List XNode
  | .mk _ _ c => c

/-- Python `str.strip()` whitespace. -/
def isPySpace (c : Char) : Bool :=
  c == ' ' || c == '\t' || c == '\n' || c == '\r' || c == '\x0b' || c == '\x0c'

/-- Python `str.strip()`. -/
def pyStrip (s : String) : String :=
  String.mk (((s.data.dropWhile isPySpace).reverse.dropWhile
    isPySpace).reverse)

/-- `ET.Element.find`: the first direct child whose tag matches exactly. -/
def findChild (n : XNode) (name : String) : Option XNode :=
  n.children.find? (fun c => c.tag == name)

/-- `extract_contents` (`yofx/parse.py` lines 30-34): `None` when the child
is missing or its text is `None` or empty (`not child_node.text`);
otherwise the stripped text. -/
def extract_contents (n : XNode) (name : String) : Option String :=
  match findChild n name with
  | none => none
  | some c =>
      match c.text with
      | none => none
      | some t => if t = "" then none else some (pyStrip t)

/-- The yofx `Transaction` record.  `yofx/types.py` is not under `src/` —
modelled from the spec's data model (§3): string fields default to empty,
optional fields to absent. -/
structure Transaction where
  payee : String
  type : String
  date : Option OfxDate
  user_date : Option OfxDate
  amount : Option Dec
  id : String
  memo : String
deriving DecidableEq, Repr

/-- `tp.defaults.transaction()` — modelled from the spec: every field at
its default. -/
def defaultsTransaction : Transaction := ⟨"", "", none, none, none, "", ""⟩

/-- `parse_transaction` (`yofx/parse.py` lines 281-311): every field is
optional — a missing tag leaves the record's default in place; a present
`TRNAMT` whose text fails decimal parsing raises, and a present `DTPOSTED`
whose text fails date parsing raises; the id is read from the tag `ID`.
`yofx.helpers.to_decimal` / `from_ofx_date` are not under `src/` and are
modelled from the spec as the `ofxclient` normalizers embedded above,
taking the string directly. -/
def parse_transaction (n : XNode) : Except String Transaction := do
  let rv := defaultsTransaction
  let rv := match extract_contents n "TRNTYPE" with
    | some s => { rv with type := String.mk (s.data.map Char.toLower) }
    | none => rv
  let rv := match extract_contents n "NAME" with
    | some s => { rv with payee := s }
    | none => rv
  let rv := match extract_contents n "MEMO" with
    | some s => { rv with memo := s }
    | none => rv
  let rv ← match extract_contents n "TRNAMT" with
    | some s =>
        match to_decimal s with
        | some d => pure { rv with amount := some d }
        | none => throw "decimal.InvalidOperation"
    | none => pure rv
  let rv ← match extract_contents n "DTPOSTED" with
    | some s => (from_ofx_date s).map (fun dt => { rv with date := some dt })
    | none => pure rv
  let rv := match extract_contents n "ID" with
    | some s => { rv with id := s }
    | none => rv
  pure rv

/-! ## Markup normalizer (`yofx/parse.py` lines 102-130,
`clean_ofx_xml`) -/

/-- Characters matched by `[a-z0-9_\.]` under `(?i)`. -/
def isNameChar (c : Char) : Bool :=
  c.isAlpha || c.isDigit || c == '_' || c == '.'

/-- Parse one `</?[a-z0-9_\.]+>` tag token (the `re.split` delimiter) at
the head of the input, returning the token and the remaining input. -/
def parseTag (l : List Char) : Option (List Char × List Char) :=
  match l with
  | '<' :: rest =>
      let sl : List Char × List Char :=
        match rest with
        | '/' :: r => (['/'], r)
        | _ => ([], rest)
      let name := sl.2.takeWhile isNameChar
      if name.isEmpty then none
      else
        match sl.2.drop name.length with
        | '>' :: tail => some ('<' :: sl.1 ++ name ++ ['>'], tail)
        | _ => none
  | _ => none

/-- Tokenizer modelling `re.split(r"(?i)(</?[a-z0-9_\.]+>)", s)`: the
alternating maximal text runs and tag delimiters, leftmost first, with
empty pieces dropped (an empty piece is inert in the rewriting fold:
no `startswith` test fires and concatenation ignores it).  `fuel ≥ length`
suffices. -/
def tokenizeAux : Nat → List Char → List Char → List (List Char)
  | 0, acc, l =>
      (if acc.isEmpty then [] else [acc.reverse]) ++
        (if l.isEmpty then [] else [l])
  | _ + 1, acc, [] => if acc.isEmpty then [] else [acc.reverse]
  | fuel + 1, acc, c :: rest =>
      match parseTag (c :: rest) with
      | some (tok, tail) =>
          (if acc.isEmpty then [] else [acc.reverse]) ++
            tok :: tokenizeAux fuel [] tail
      | none => tokenizeAux fuel (c :: acc) rest

/-- Token list of a document. -/
def tokenize (s : String) : List (List Char) :=
  tokenizeAux s.data.length [] s.data

/-- Parse one `</([a-z0-9_\.]+)>` closing tag at the head, returning the
uppercased name and the remaining input. -/
def parseClosing (l : List Char) : Option (String × List Char) :=
  match l with
  | '<' :: '/' :: rest =>
      let name := rest.takeWhile isNameChar
      if name.isEmpty then none
      else
        match rest.drop name.length with
        | '>' :: tail => some (String.mk (name.map Char.toUpper), tail)
        | _ => none
  | _ => none

/-- `closing_tags` (lines 104-107): `re.findall(r"(?i)</([a-z0-9_\.]+)>")`
over the whole document, uppercased, leftmost non-overlapping. -/
def collectClosing : Nat → List Char → List String
  | 0, _ => []
  | _ + 1, [] => []
  | fuel + 1, c :: rest =>
      match parseClosing (c :: rest) with
      | some (n, tail) => n :: collectClosing fuel tail
      | none => collectClosing fuel rest

/-- Parse one `<([a-z0-9_\.]+)>` opening tag at the head, returning the
name. -/
def parseOpen (l : List Char) : Option (List Char) :=
  match l with
  | '<' :: rest =>
      let name := rest.takeWhile isNameChar
      if name.isEmpty then none
      else
        match rest.drop name.length with
        | '>' :: _ => some name
        | _ => none
  | _ => none

/-- `re.findall(r"(?i)<([a-z0-9_\.]+)>", token)[0]`: the first `<name>`
occurrence anywhere in the token; `none` models the `IndexError` raised
when a `<`-initial token contains no such match. -/
def findOpenName : Nat → List Char → Option (List Char)
  | 0, _ => none
  | _ + 1, [] => none
  | fuel + 1, c :: rest =>
      match parseOpen (c :: rest) with
      | some nm => some nm
      | none => findOpenName fuel rest

/-- `token.startswith("<") and not token.startswith("<!")`: the tokens
that flush a pending leaf (closing tags, opening tags and processing
instructions; comments/CDATA pass through untracked). -/
def isTagTok (tok : List Char) : Bool :=
  decide (tok.take 1 = ['<']) && !(decide (tok.take 2 = ['<', '!']))

/-- An opening-tag token: a tag token that is neither closing nor a
processing instruction. -/
def isOpenTok (tok : List Char) : Bool :=
  isTagTok tok && !(decide (tok.take 2 = ['<', '/'])) &&
    !(decide (tok.take 2 = ['<', '?']))

/-- One iteration of the `clean_ofx_xml` loop (lines 114-129): on any tag
token a pending leaf is flushed as its synthesized closing tag and the
pending slot cleared; an opening tag whose uppercased name has no explicit
closing tag anywhere becomes the new pending leaf; the token itself is
emitted verbatim. -/
def cleanStep (closing : List String) (st : String × Option String)
    (tok : List Char) : Except String (String × Option String) :=
  let cleaned :=
    if isTagTok tok then
      match st.2 with
      | some t => st.1 ++ "</" ++ t ++ ">"
      | none => st.1
    else st.1
  let last : Option String := if isTagTok tok then none else st.2
  if isOpenTok tok then
    match findOpenName tok.length tok with
    | none => .error "IndexError"
    | some nm =>
        .ok (cleaned ++ String.mk tok,
          if closing.contains (String.mk (nm.map Char.toUpper)) then none
          else some (String.mk nm))
  else .ok (cleaned ++ String.mk tok, last)

/-- `clean_ofx_xml` (`yofx/parse.py` lines 102-130): collect the
known-container set, then fold the rewriting step over the tokens.  The
trailing pending leaf, if any, is not flushed at end of input (the source
loop ends without appending it). -/
def clean_ofx_xml (s : String) : Except String String := do
  let closing := collectClosing s.data.length s.data
  let st ← (tokenize s).foldlM (cleanStep closing) ("", none)
  pure st.1

/-! ## Header extraction (`yofx/parse.py` lines 81-99,
`extract_headers`) -/

/-- Python `str.splitlines()` restricted to the `\n`, `\r\n` and `\r`
terminators (Unicode line boundaries are outside the embedded subset): no
trailing empty line is produced. -/
def splitLinesAux : List Char → List Char → List (List Char)
  | acc, [] => if acc.isEmpty then [] else [acc.reverse]
  | acc, '\r' :: '\n' :: rest => acc.reverse :: splitLinesAux [] rest
  | acc, '\n' :: rest => acc.reverse :: splitLinesAux [] rest
  | acc, '\r' :: rest => acc.reverse :: splitLinesAux [] rest
  | acc, c :: rest => splitLinesAux (c :: acc) rest

/-- Lines of the header block. -/
def splitLines (l : List Char) : List (List Char) := splitLinesAux [] l

/-- Python `line.split(":")`: split on every colon. -/
def splitColonAux : List Char → List Char → List (List Char)
  | acc, [] => [acc.reverse]
  | acc, ':' :: rest => acc.reverse :: splitColonAux [] rest
  | acc, c :: rest => splitColonAux (c :: acc) rest

/-- `OrderedDict.__setitem__` over an association list with unique keys: an
existing key keeps its position and takes the new value; a new key is
appended. -/
def odInsert : List (String × String) → String × String →
    List (String × String)
  | [], kv => [kv]
  | p :: ps, kv => if p.1 == kv.1 then kv :: ps else p :: odInsert ps kv

/-- `OrderedDict` read: the entry stored for a key. -/
def odLookup (k : String) (l : List (String × String)) : Option String :=
  (l.find? (fun p => p.1 == k)).map (·.2)

/-- The header block of `extract_headers`: the characters before the first
`<` — all of the input but its final character when no `<` occurs (the
source's `for index, char in enumerate(...)` leaves `index` at the last
enumeration value), and a `NameError` on empty input (`index` is never
bound). -/
def headSegment (s : String) : Except String (List Char) :=
  match s.data with
  | [] => .error "NameError"
  | _ =>
      match s.data.findIdx? (fun c => c == '<') with
      | some i => .ok (s.data.take i)
      | none => .ok (s.data.take (s.data.length - 1))

/-- The `NAME:VALUE` header lines in order, stopping at the first blank
line; a line that does not split into exactly two parts on `:` raises
`ValueError` (tuple unpacking of `line.split(":")`).  Names are stripped
and uppercased (ASCII), values stripped. -/
def parseHeaderLines : List (List Char) →
    Except String (List (String × String))
  | [] => .ok []
  | line :: rest =>
      if pyStrip (String.mk line) = "" then .ok []
      else
        match splitColonAux [] line with
        | [h, v] => do
            let pairs ← parseHeaderLines rest
            .ok ((String.mk ((pyStrip (String.mk h)).data.map Char.toUpper),
              pyStrip (String.mk v)) :: pairs)
        | _ => .error "ValueError"

/-- `extract_headers` (`yofx/parse.py` lines 81-99): ordered mapping built
by `rv[header] = value` over the header lines. -/
def extract_headers (s : String) : Except String (List (String × String)) := do
  let head ← headSegment s
  let pairs ← parseHeaderLines (splitLines head)
  .ok (pairs.foldl odInsert [])

/-- Keys in order of first occurrence, extending an already-seen key
list. -/
def firstKeys (seen : List String) : List (String × String) → List String
  | [] => seen
  | p :: ps =>
      if seen.any (fun x => x == p.1) then firstKeys seen ps
      else firstKeys (seen ++ [p.1]) ps

/-- The value of the last header line carrying a key (later lines take
precedence). -/
def lastVal (k : String) : List (String × String) → Option String
  | [] => none
  | p :: ps =>
      match lastVal k ps with
      | some v => some v
      | none => if p.1 == k then some p.2 else none

/-! ## Header decoding (`yofx/parse.py` lines 47-78, `decode_headers`) -/

/-- One byte of an undecoded header (value < 256). -/
abbrev Byte := Nat

/-- ASCII bytes of a header-name string, for building test inputs. -/
def asciiBytes (s : String) : List Byte := s.data.map Char.toNat

/-- `bytes.decode("ascii", "replace")`: bytes ≥ 0x80 become U+FFFD; never
fails. -/
def asciiReplace (bs : List Byte) : String :=
  String.mk (bs.map (fun b => if b < 128 then Char.ofNat b else '�'))

/-- One byte of strict Windows-1252 (`cp1252`): the five undefined
positions raise `UnicodeDecodeError`. -/
def cp1252Byte (b : Byte) : Option Char :=
  if b < 0x80 || (0xA0 ≤ b && b ≤ 0xFF) then some (Char.ofNat b)
  else
    match b with
    | 0x80 => some (Char.ofNat 0x20AC)
    | 0x82 => some (Char.ofNat 0x201A)
    | 0x83 => some (Char.ofNat 0x0192)
    | 0x84 => some (Char.ofNat 0x201E)
    | 0x85 => some (Char.ofNat 0x2026)
    | 0x86 => some (Char.ofNat 0x2020)
    | 0x87 => some (Char.ofNat 0x2021)
    | 0x88 => some (Char.ofNat 0x02C6)
    | 0x89 => some (Char.ofNat 0x2030)
    | 0x8A => some (Char.ofNat 0x0160)
    | 0x8B => some (Char.ofNat 0x2039)
    | 0x8C => some (Char.ofNat 0x0152)
    | 0x8E => some (Char.ofNat 0x017D)
    | 0x91 => some (Char.ofNat 0x2018)
    | 0x92 => some (Char.ofNat 0x2019)
    | 0x93 => some (Char.ofNat 0x201C)
    | 0x94 => some (Char.ofNat 0x201D)
    | 0x95 => some (Char.ofNat 0x2022)
    | 0x96 => some (Char.ofNat 0x2013)
    | 0x97 => some (Char.ofNat 0x2014)
    | 0x98 => some (Char.ofNat 0x02DC)
    | 0x99 => some (Char.ofNat 0x2122)
    | 0x9A => some (Char.ofNat 0x0161)
    | 0x9B => some (Char.ofNat 0x203A)
    | 0x9C => some (Char.ofNat 0x0153)
    | 0x9E => some (Char.ofNat 0x017E)
    | 0x9F => some (Char.ofNat 0x0178)
    | _ => none

/-- Strict `cp1252` decoding of a byte string. -/
def decodeCp1252 (bs : List Byte) : Option String :=
  (bs.mapM cp1252Byte).map String.mk

/-- Strict `iso-8859-1` decoding: every byte maps to the same code
point. -/
def decodeLatin1 (bs : List Byte) : Option String :=
  (bs.mapM (fun b => if b ≤ 0xFF then some (Char.ofNat b) else none)).map
    String.mk

/-- Strict UTF-8 decoding (overlong and surrogate encodings rejected). -/
def utf8Decode : List Byte → Option (List Char)
  | [] => some []
  | b1 :: rest =>
      if b1 < 0x80 then (utf8Decode rest).map (Char.ofNat b1 :: ·)
      else if 0xC2 ≤ b1 && b1 ≤ 0xDF then
        match rest with
        | b2 :: rest2 =>
            if 0x80 ≤ b2 && b2 ≤ 0xBF then
              (utf8Decode rest2).map
                (Char.ofNat ((b1 - 0xC0) * 64 + (b2 - 0x80)) :: ·)
            else none
        | [] => none
      else if 0xE0 ≤ b1 && b1 ≤ 0xEF then
        match rest with
        | b2 :: b3 :: rest3 =>
            if ((b1 = 0xE0 && 0xA0 ≤ b2 || b1 = 0xED && b2 ≤ 0x9F ||
                  b1 ≠ 0xE0 && b1 ≠ 0xED && 0x80 ≤ b2) && b2 ≤ 0xBF) &&
                (0x80 ≤ b3 && b3 ≤ 0xBF) then
              (utf8Decode rest3).map
                (Char.ofNat ((b1 - 0xE0) * 4096 + (b2 - 0x80) * 64 +
                  (b3 - 0x80)) :: ·)
            else none
        | _ => none
      else if 0xF0 ≤ b1 && b1 ≤ 0xF4 then
        match rest with
        | b2 :: b3 :: b4 :: rest4 =>
            if ((b1 = 0xF0 && 0x90 ≤ b2 || b1 = 0xF4 && b2 ≤ 0x8F ||
                  b1 ≠ 0xF0 && b1 ≠ 0xF4 && 0x80 ≤ b2) && b2 ≤ 0xBF) &&
                (0x80 ≤ b3 && b3 ≤ 0xBF) && (0x80 ≤ b4 && b4 ≤ 0xBF) then
              (utf8Decode rest4).map
                (Char.ofNat ((b1 - 0xF0) * 262144 + (b2 - 0x80) * 4096 +
                  (b3 - 0x80) * 64 + (b4 - 0x80)) :: ·)
            else none
        | _ => none
      else none

/-- Strict `utf-8` decoding of a byte string. -/
def decodeUtf8 (bs : List Byte) : Option String :=
  (utf8Decode bs).map String.mk

/-- `codecs` lookup, restricted to the encodings the header logic can
name on its resolved paths (`cp1252`, `iso-8859-1`, `utf-8`); any other
`cp%s` codec name is modelled as the Python `LookupError` (charset values
naming other real code pages are outside the embedded subset). -/
def codecLookup (nm : String) : Option (List Byte → Option String) :=
  if nm = "cp1252" then some decodeCp1252
  else if nm = "iso-8859-1" then some decodeLatin1
  else if nm = "utf-8" then some decodeUtf8
  else none

/-- The exception `decode_headers` can raise: the unbound local
`encoding` (a `NameError`) when `ENCODING` is present but matches neither
`USASCII` nor `UNICODE`/`UTF-8`; a `LookupError` for an unknown `cp%s`
codec; a `UnicodeDecodeError` from a strict decode. -/
inductive DecodeError where
  | nameError
  | lookupError
  | unicodeError
deriving DecidableEq, Repr

/-- The ASCII-with-replacement header mapping built first by
`decode_headers`. -/
def asciiOd (headers : List (List Byte × List Byte)) :
    List (String × String) :=
  (headers.map (fun p => (asciiReplace p.1, asciiReplace p.2))).foldl
    odInsert []

/-- `decode_headers` (`yofx/parse.py` lines 47-78): decode the headers
with ASCII-replace, read `ENCODING` (falsy means the ASCII mapping is
returned), resolve `USASCII`+`CHARSET` to `cp%s`/`iso-8859-1` and
`UNICODE`/`UTF-8` to `utf-8`, then strictly decode every original header
with the resolved codec.  An unrecognized `ENCODING` leaves the local
`encoding` unbound — a `NameError`. -/
def decode_headers (headers : List (List Byte × List Byte)) :
    Except DecodeError (List (String × String)) :=
  let ascii := asciiOd headers
  match odLookup "ENCODING" ascii with
  | none => .ok ascii
  | some enc =>
      if enc = "" then .ok ascii
      else
        let encodingName : Option String :=
          if enc = "USASCII" then
            let cp := (odLookup "CHARSET" ascii).getD "1252"
            some (if cp = "8859-1" then "iso-8859-1" else "cp" ++ cp)
          else if enc = "UNICODE" ∨ enc = "UTF-8" then some "utf-8"
          else none
        match encodingName with
        | none => .error .nameError
        | some nm =>
            match codecLookup nm with
            | none => .error .lookupError
            | some dec =>
                match headers.mapM (fun p => do
                    let k ← dec p.1
                    let v ← dec p.2
                    pure (k, v)) with
                | none => .error .unicodeError
                | some pairs => .ok (pairs.foldl odInsert [])

/-! ## Theorems -/

/-- Helper: evaluate `to_decimal_rat` through a computed `to_decimal`. -/
theorem to_decimal_rat_eq_val (s : String) (d : Dec)
    (h : to_decimal s = some d) : to_decimal_rat s = some d.val := by
  rw [to_decimal_rat, h]; rfl

/-- C4: the decimal normalizer maps `"1,025.53"`, `"1.025,53"`,
`"10000,50"`, `"1 025,53"`, `"+1058,53"` to the exact decimal values
`1025.53`, `1025.53`, `10000.50`, `1025.53`, `1058.53`, and the `TRNAMT`
handling maps the literal tokens `"null"` and `"-null"` to zero instead of
propagating the decimal format error. -/
theorem c4_decimal_normalizer_values :
    to_decimal_rat "1,025.53" = some (102553 / 100 : ℚ) ∧
    to_decimal_rat "1.025,53" = some (102553 / 100 : ℚ) ∧
    to_decimal_rat "10000,50" = some (20001 / 2 : ℚ) ∧
    to_decimal_rat "1 025,53" = some (102553 / 100 : ℚ) ∧
    to_decimal_rat "+1058,53" = some (105853 / 100 : ℚ) ∧
    parse_trnamt "null" = .ok 0 ∧
    parse_trnamt "-null" = .ok 0 := by
  refine ⟨?_, ?_, ?_, ?_, ?_, rfl, rfl⟩
  · rw [to_decimal_rat_eq_val _ ⟨false, 102553, 2⟩ (by decide)]
    simp [Dec.val]; norm_num
  · rw [to_decimal_rat_eq_val _ ⟨false, 102553, 2⟩ (by decide)]
    simp [Dec.val]; norm_num
  · rw [to_decimal_rat_eq_val _ ⟨false, 1000050, 2⟩ (by decide)]
    simp [Dec.val]; norm_num
  · rw [to_decimal_rat_eq_val _ ⟨false, 102553, 2⟩ (by decide)]
    simp [Dec.val]; norm_num
  · rw [to_decimal_rat_eq_val _ ⟨false, 105853, 2⟩ (by decide)]
    simp [Dec.val]; norm_num

/-- Digit characters round-trip through `digitChar`. -/
theorem digitChar_toNat (k : Nat) (hk : k < 10) : (digitChar k).toNat - 48 = k := by
  interval_cases k <;> decide

/-- Digit characters are digits. -/
theorem digitChar_isDigit (k : Nat) (hk : k < 10) : (digitChar k).isDigit = true := by
  interval_cases k <;> decide

/-- Folding the digit accumulator over an appended singleton. -/
theorem digitsToNat_append_singleton (l : List Char) (c : Char) :
    digitsToNat (l ++ [c]) = digitsToNat l * 10 + (c.toNat - 48) := by
  simp [digitsToNat, List.foldl_append]

/-- A leading `'0'` does not change the accumulated value. -/
theorem digitsToNat_cons_zero (l : List Char) :
    digitsToNat ('0' :: l) = digitsToNat l := by
  simp [digitsToNat]

/-- Leading `'0'` padding does not change the accumulated value. -/
theorem digitsToNat_replicate_zero_append (k : Nat) (l : List Char) :
    digitsToNat (List.replicate k '0' ++ l) = digitsToNat l := by
  induction k with
  | zero => simp
  | succ n ih => simpa [List.replicate_succ, digitsToNat_cons_zero] using ih

/-- `natToDigitsAux` emits only digit characters. -/
theorem natToDigitsAux_all_isDigit (fuel n : Nat) :
    (natToDigitsAux fuel n).all Char.isDigit = true := by
  induction fuel generalizing n with
  | zero => simp [natToDigitsAux]
  | succ f ih =>
      by_cases h : n = 0
      · simp [natToDigitsAux, h]
      · simp only [natToDigitsAux, h, if_false]
        rw [List.all_append]
        simp [ih, digitChar_isDigit (n % 10) (Nat.mod_lt n (by norm_num))]

/-- `natToDigitsAux` round-trips when given enough fuel. -/
theorem digitsToNat_natToDigitsAux (fuel n : Nat) (h : n ≤ fuel) :
    digitsToNat (natToDigitsAux fuel n) = n := by
  induction fuel generalizing n with
  | zero => interval_cases n; simp [natToDigitsAux, digitsToNat]
  | succ f ih =>
      by_cases h0 : n = 0
      · simp [natToDigitsAux, h0, digitsToNat]
      · have hdiv : n / 10 ≤ f := by omega
        rw [natToDigitsAux, if_neg h0, digitsToNat_append_singleton, ih _ hdiv,
          digitChar_toNat (n % 10) (Nat.mod_lt n (by omega))]
        omega

/-- `natToDigits` emits only digit characters. -/
theorem natToDigits_all_isDigit (n : Nat) :
    (natToDigits n).all Char.isDigit = true := by
  by_cases h : n = 0
  · simp [natToDigits, h]
  · simp [natToDigits, h, natToDigitsAux_all_isDigit]

/-- `natToDigits` round-trips through `digitsToNat`. -/
theorem digitsToNat_natToDigits (n : Nat) : digitsToNat (natToDigits n) = n := by
  by_cases h : n = 0
  · simp [natToDigits, h, digitsToNat]
  · simp [natToDigits, h, digitsToNat_natToDigitsAux n n le_rfl]

/-- No comma means the after-dot comma search fails. -/
theorem commaNoNl_eq_false (l : List Char) (h : ',' ∉ l) : commaNoNl l = false := by
  induction l with
  | nil => rfl
  | cons c cs ih =>
      have hc : c ≠ ',' := fun hc => h (hc ▸ List.mem_cons_self c cs)
      simp [commaNoNl, hc, ih (fun hm => h (List.mem_cons_of_mem c hm))]

/-- No comma means rule 1's pattern does not match. -/
theorem dotThenComma_eq_false (l : List Char) (h : ',' ∉ l) :
    dotThenComma l = false := by
  induction l with
  | nil => rfl
  | cons c cs ih =>
      have hcs : ',' ∉ cs := fun hm => h (List.mem_cons_of_mem c hm)
      simp [dotThenComma, commaNoNl_eq_false cs hcs, ih hcs]

/-- No comma means rule 2's pattern does not match. -/
theorem commaThenDot_eq_false (l : List Char) (h : ',' ∉ l) :
    commaThenDot l = false := by
  induction l with
  | nil => rfl
  | cons c cs ih =>
      have hc : c ≠ ',' := fun hc => h (hc ▸ List.mem_cons_self c cs)
      simp [commaThenDot, hc, ih (fun hm => h (List.mem_cons_of_mem c hm))]

/-- The cleaning steps fix any string free of commas, spaces and plus
signs. -/
theorem cleanDecChars_eq_self (l : List Char)
    (h : ∀ c ∈ l, c ≠ ',' ∧ c ≠ ' ' ∧ c ≠ '+') : cleanDecChars l = l := by
  have hcomma : ',' ∉ l := fun hm => ((h _ hm).1 rfl).elim
  have hcon : l.contains ',' = false := by simpa using hcomma
  have hfs : l.filter (fun c => c != ' ') = l :=
    List.filter_eq_self.mpr fun a ha => by simp [(h a ha).2.1]
  have hfp : l.filter (fun c => c != '+') = l :=
    List.filter_eq_self.mpr fun a ha => by simp [(h a ha).2.2]
  simp only [cleanDecChars, dotThenComma_eq_false l hcomma,
    commaThenDot_eq_false l hcomma, hcon, Bool.and_false, if_false,
    Bool.false_eq_true, hfs, hfp]

/-- `takeWhile` keeps an all-true prefix up to a failing element. -/
theorem takeWhile_append_cons (p : Char → Bool) (l1 : List Char) (c : Char)
    (l2 : List Char) (h1 : l1.all p = true) (hc : p c = false) :
    (l1 ++ c :: l2).takeWhile p = l1 := by
  induction l1 with
  | nil => simp [List.takeWhile_cons, hc]
  | cons a t ih =>
      rw [List.all_cons, Bool.and_eq_true] at h1
      simp [List.takeWhile_cons, h1.1, ih h1.2]

/-- `takeWhile` over an all-true list is the list. -/
theorem takeWhile_eq_self_of_all (p : Char → Bool) (l : List Char)
    (h : l.all p = true) : l.takeWhile p = l := by
  induction l with
  | nil => rfl
  | cons a t ih =>
      rw [List.all_cons, Bool.and_eq_true] at h
      simp [List.takeWhile_cons, h.1, ih h.2]

/-- Every character of a rendered decimal is a digit, a point or a leading
minus. -/
theorem renderDec_chars (d : Dec) :
    ∀ c ∈ renderDec d, c.isDigit = true ∨ c = '.' ∨ c = '-' := by
  intro c hc
  have hs : ∀ x ∈ List.replicate (d.nfrac + 1 - (natToDigits d.coeff).length) '0'
      ++ natToDigits d.coeff, x.isDigit = true := by
    intro x hx
    rcases List.mem_append.mp hx with hx | hx
    · rw [List.eq_of_mem_replicate hx]; decide
    · exact List.all_eq_true.mp (natToDigits_all_isDigit d.coeff) x hx
  simp only [renderDec] at hc
  rcases List.mem_append.mp hc with hc | hc
  · right; right
    rcases Bool.eq_false_or_eq_true d.neg with hneg | hneg <;>
      simp [hneg] at hc
    exact hc
  · split at hc
    · exact Or.inl (hs c (List.take_subset _ _ hc))
    · rcases List.mem_append.mp hc with hc | hc
      · exact Or.inl (hs c (List.take_subset _ _ hc))
      · rcases List.mem_cons.mp hc with hc | hc
        · exact Or.inr (Or.inl hc)
        · exact Or.inl (hs c (List.drop_subset _ _ hc))

/-- Parsing a rendered decimal recovers it exactly. -/
theorem parseDecD_renderDec (d : Dec) : parseDecD (renderDec d) = some d := by
  set s0 := natToDigits d.coeff with hs0
  set s := List.replicate (d.nfrac + 1 - s0.length) '0' ++ s0 with hs
  have hslen : d.nfrac + 1 ≤ s.length := by
    rw [hs, List.length_append, List.length_replicate]; omega
  have hsdig : s.all Char.isDigit = true := by
    rw [List.all_eq_true]
    intro x hx
    rcases List.mem_append.mp hx with hx | hx
    · rw [List.eq_of_mem_replicate hx]; decide
    · exact List.all_eq_true.mp (natToDigits_all_isDigit d.coeff) x hx
  have hsval : digitsToNat s = d.coeff := by
    rw [hs, digitsToNat_replicate_zero_append, hs0, digitsToNat_natToDigits]
  set ip := s.take (s.length - d.nfrac) with hip
  set fp := s.drop (s.length - d.nfrac) with hfp
  have hipfp : ip ++ fp = s := List.take_append_drop _ _
  have hiplen : ip.length = s.length - d.nfrac := by
    rw [hip, List.length_take]; omega
  have hfplen : fp.length = d.nfrac := by
    rw [hfp, List.length_drop]; omega
  have hipdig : ip.all Char.isDigit = true := by
    rw [List.all_eq_true]
    exact fun x hx =>
      List.all_eq_true.mp hsdig x (List.take_subset _ _ hx)
  have hfpdig : fp.all Char.isDigit = true := by
    rw [List.all_eq_true]
    exact fun x hx =>
      List.all_eq_true.mp hsdig x (List.drop_subset _ _ hx)
  have hipne : ip ≠ [] := by
    intro hnil
    rw [hnil] at hiplen
    simp at hiplen
    omega
  obtain ⟨a, ip', hipcons⟩ := List.exists_cons_of_ne_nil hipne
  have hadig : a.isDigit = true :=
    List.all_eq_true.mp hipdig a (by rw [hipcons]; exact List.mem_cons_self _ _)
  have hane : a ≠ '-' ∧ a ≠ '+' := by
    constructor <;> · intro h
                      rw [h] at hadig
                      exact absurd hadig (by decide)
  -- the body after the optional sign
  have hbody : ∀ body : List Char, body = (if d.nfrac = 0 then ip else ip ++ '.' :: fp) →
      (splitSign ((if d.neg then ['-'] else []) ++ body)) =
        (d.neg, body) := by
    intro body hb
    have hbcons : ∃ r, body = a :: r := by
      by_cases h0 : d.nfrac = 0
      · exact ⟨ip', by rw [hb, if_pos h0, hipcons]⟩
      · exact ⟨ip' ++ '.' :: fp, by rw [hb, if_neg h0, hipcons]; rfl⟩
    obtain ⟨r, hr⟩ := hbcons
    rcases Bool.eq_false_or_eq_true d.neg with hneg | hneg <;>
      · rw [hneg, hr]
        simp [splitSign, hane.1, hane.2]
  by_cases h0 : d.nfrac = 0
  · -- no fractional digits: the rendered string is just the digit run
    have hip_s : ip = s := by rw [hip, h0, Nat.sub_zero, List.take_length]
    have : renderDec d = (if d.neg then ['-'] else []) ++ ip := by
      rw [renderDec, if_pos h0, ← hip, hip_s]
    rw [this, parseDecD, hbody ip (by rw [if_pos h0])]
    simp only
    rw [takeWhile_eq_self_of_all _ _ hipdig, List.drop_length]
    have hipe : ip.isEmpty = false := by rw [hipcons]; rfl
    simp only [hipe, Bool.false_eq_true, if_false]
    rw [hip_s, hsval, ← h0]
  · have : renderDec d = (if d.neg then ['-'] else []) ++ (ip ++ '.' :: fp) := by
      rw [renderDec, if_neg h0, ← hip, ← hfp]
    rw [this, parseDecD, hbody (ip ++ '.' :: fp) (by rw [if_neg h0])]
    simp only
    rw [takeWhile_append_cons _ _ _ _ hipdig (by decide)]
    rw [List.drop_left]
    simp only [hfpdig, Bool.true_and]
    have hipe : ip.isEmpty = false := by rw [hipcons]; rfl
    simp only [hipe, Bool.not_false, Bool.true_or, if_true]
    rw [hipfp, hsval, hfplen]

/-- Normalizing the canonical rendering of a normalized decimal returns the
same decimal. -/
theorem to_decimal_renderDec (d : Dec) :
    to_decimal (String.mk (renderDec d)) = some d := by
  rw [to_decimal, show (String.mk (renderDec d)).data = renderDec d from rfl,
    cleanDecChars_eq_self _ ?_, parseDecD_renderDec]
  intro c hc
  rcases renderDec_chars d c hc with h | h | h
  · refine ⟨?_, ?_, ?_⟩ <;> · intro he; rw [he] at h; exact absurd h (by decide)
  · rw [h]; refine ⟨by decide, by decide, by decide⟩
  · rw [h]; refine ⟨by decide, by decide, by decide⟩

/-- C9: for every input string accepted by the decimal normalizer,
normalization is idempotent — rendering the resulting decimal back to its
canonical string and normalizing that string again yields the same decimal,
hence the same value. -/
theorem c9_decimal_normalizer_idempotent (s : String) (d : Dec)
    (h : to_decimal s = some d) :
    to_decimal (String.mk (renderDec d)) = some d ∧
    to_decimal_rat (String.mk (renderDec d)) = to_decimal_rat s := by
  refine ⟨to_decimal_renderDec d, ?_⟩
  rw [to_decimal_rat, to_decimal_rat, h, to_decimal_renderDec d]

/-- Witness for `c9_decimal_normalizer_idempotent` at the accepted input
`"1,025.53"`. -/
theorem c9_decimal_normalizer_idempotent_witness :
    to_decimal "1,025.53" = some ⟨false, 102553, 2⟩ ∧
    to_decimal (String.mk (renderDec ⟨false, 102553, 2⟩)) =
      some ⟨false, 102553, 2⟩ :=
  ⟨by decide,
    (c9_decimal_normalizer_idempotent "1,025.53" ⟨false, 102553, 2⟩
      (by decide)).1⟩

/-- Digit characters built from a `% 10` remainder are digits. -/
theorem digitChar_mod_isDigit (x : Nat) : (digitChar (x % 10)).isDigit = true :=
  digitChar_isDigit _ (Nat.mod_lt x (by norm_num))

/-- Digit-value of a `% 10` digit character. -/
theorem digitChar_mod_toNat (x : Nat) : (digitChar (x % 10)).toNat - 48 = x % 10 :=
  digitChar_toNat _ (Nat.mod_lt x (by norm_num))

/-- A `% 10` digit character differs from every non-digit character. -/
theorem digitChar_mod_ne (x : Nat) (c : Char) (hc : c.isDigit = false) :
    digitChar (x % 10) ≠ c := by
  intro h
  have hd := digitChar_mod_isDigit x
  rw [h, hc] at hd
  cases hd

/-- The serialized datetime is its 14 zero-padded digit characters. -/
theorem to_ofx_date_data (d : DateTime) :
    (to_ofx_date d).data =
      [digitChar (d.year / 1000 % 10), digitChar (d.year / 100 % 10),
        digitChar (d.year / 10 % 10), digitChar (d.year % 10),
        digitChar (d.month / 10 % 10), digitChar (d.month % 10),
        digitChar (d.day / 10 % 10), digitChar (d.day % 10),
        digitChar (d.hour / 10 % 10), digitChar (d.hour % 10),
        digitChar (d.minute / 10 % 10), digitChar (d.minute % 10),
        digitChar (d.second / 10 % 10), digitChar (d.second % 10)] := rfl

/-- A serialized datetime is all digits. -/
theorem to_ofx_date_all_digits (d : DateTime) :
    (to_ofx_date d).data.all Char.isDigit = true := by
  rw [to_ofx_date_data]
  simp [digitChar_mod_isDigit]

/-- A backward timezone scan starting at a non-bracket character fails. -/
theorem findTzRev_ne (c : Char) (rest : List Char) (h : c ≠ ']') :
    findTzRev (c :: rest) = none := by
  simp [findTzRev, h]

/-- No timezone bracket matches in a serialized datetime. -/
theorem findTz_to_ofx_date (d : DateTime) : findTz (to_ofx_date d) = none := by
  rw [findTz, to_ofx_date_data]
  exact findTzRev_ne _ _ (digitChar_mod_ne _ _ (by decide))

/-- An all-digit string has no fractional-second match. -/
theorem findFrac_all_digits (s : String) (h : s.data.all Char.isDigit = true) :
    findFrac s = none := by
  rw [findFrac, takeWhile_eq_self_of_all _ _ h, List.drop_length]
  rfl

/-- Months never exceed 31 days. -/
theorem daysInMonth_le (y m : Nat) : daysInMonth y m ≤ 31 := by
  rw [daysInMonth]
  split_ifs <;> norm_num

/-- `strptime14` recovers a valid datetime from its serialized form. -/
theorem strptime14_to_ofx_date (d : DateTime) (hv : validDateTime d) :
    strptime14 (to_ofx_date d) =
      .ok ⟨d.year, d.month, d.day, d.hour, d.minute, d.second, 0⟩ := by
  obtain ⟨h1, h2, h3, h4, h5, h6, h7, h8, h9, h10⟩ := hv
  rw [strptime14, to_ofx_date_data]
  simp only [strptime14L, List.all_cons, List.all_nil, digitChar_mod_isDigit,
    Bool.and_self, Bool.and_true, if_true, digitChar_mod_toNat]
  have hy : ((d.year / 1000 % 10 * 10 + d.year / 100 % 10) * 10 +
      d.year / 10 % 10) * 10 + d.year % 10 = d.year := by omega
  have hmo : d.month / 10 % 10 * 10 + d.month % 10 = d.month := by omega
  have hd31 : d.day ≤ 31 := le_trans h6 (daysInMonth_le d.year d.month)
  have hda : d.day / 10 % 10 * 10 + d.day % 10 = d.day := by omega
  have hh : d.hour / 10 % 10 * 10 + d.hour % 10 = d.hour := by omega
  have hmi : d.minute / 10 % 10 * 10 + d.minute % 10 = d.minute := by omega
  have hse : d.second / 10 % 10 * 10 + d.second % 10 = d.second := by omega
  rw [hy, hmo, hda, hh, hmi, hse]
  rw [if_pos]
  exact ⟨by omega, by omega, h4, h5, h6, h7, h8, h9⟩

/-- C10: for every valid naive datetime with zero microseconds, the
builder's serialized 14-character form round-trips through the date parser
with zero offset and zero fractional seconds, recovering the datetime
exactly.  (`strftime` is platform-defined below year 1000, so validity
includes a four-digit year.) -/
theorem c10_date_roundtrip (d : DateTime) (hv : validDateTime d)
    (hu : d.usec = 0) : from_ofx_date (to_ofx_date d) = .ok (d, 0) := by
  rw [from_ofx_date, findTz_to_ofx_date,
    findFrac_all_digits _ (to_ofx_date_all_digits d),
    strptime14_to_ofx_date d hv]
  have hd : (⟨d.year, d.month, d.day, d.hour, d.minute, d.second, 0⟩ :
      DateTime) = d := by
    rw [← hu]
  rw [hd]
  norm_num

/-- Witness for `c10_date_roundtrip` at 2023-01-01T12:00:00. -/
theorem c10_date_roundtrip_witness :
    validDateTime ⟨2023, 1, 1, 12, 0, 0, 0⟩ ∧
    from_ofx_date (to_ofx_date ⟨2023, 1, 1, 12, 0, 0, 0⟩) =
      .ok (⟨2023, 1, 1, 12, 0, 0, 0⟩, 0) :=
  ⟨by decide, c10_date_roundtrip ⟨2023, 1, 1, 12, 0, 0, 0⟩ (by decide) rfl⟩

/-- A string whose leading 8 characters are `00000000` never parses as a
14-character timestamp: its month field is `00`. -/
theorem strptime14_sentinel (s : String)
    (h : s.data.take 8 = ("00000000" : String).data) :
    strptime14 s = .error "time data does not match format" := by
  have hsplit : s.data = ['0', '0', '0', '0', '0', '0', '0', '0'] ++
      s.data.drop 8 := by
    conv_lhs => rw [← List.take_append_drop 8 s.data]
    rw [h]
  rw [strptime14, hsplit]
  generalize s.data.drop 8 = rest
  rcases rest with _ | ⟨c9, _ | ⟨c10, _ | ⟨c11, _ | ⟨c12, _ | ⟨c13, _ |
    ⟨c14, tail⟩⟩⟩⟩⟩⟩
  · rfl
  · rfl
  · rfl
  · rfl
  · rfl
  · rfl
  · simp only [List.cons_append, List.nil_append, strptime14L]
    split
    · split
      · rename_i hdig hcond
        exact absurd hcond.2.1 (by decide)
      · rfl
    · rfl

/-- C5 counterexample: on the sentinel input `"00000000"` the date
normalizer `from_ofx_date` raises the date format error instead of
returning an explicit "no date" result. -/
theorem c5_sentinel_counterexample :
    from_ofx_date "00000000" = .error "time data does not match format" := by
  rfl

/-- C5 (amended): for every input whose leading 8 characters are
`00000000`, `parse_ofx_date` (in `ofxclient/parse.py`) returns the explicit
"no date" result `None` and never raises, while `from_ofx_date` (in
`ofxclient/helpers.py`) re-raises the date format error on the same
inputs. -/
theorem c5_sentinel_no_date (s : String)
    (h : s.data.take 8 = ("00000000" : String).data) :
    parse_ofx_date s = .ok none ∧
    from_ofx_date s = .error "time data does not match format" := by
  constructor
  · simp only [parse_ofx_date, strptime14_sentinel s h, h, if_true]
  · simp only [from_ofx_date, strptime14_sentinel s h, h, if_true]

/-- Witness for `c5_sentinel_no_date` at the sentinel itself and at a
sentinel-prefixed timestamp. -/
theorem c5_sentinel_no_date_witness :
    ("00000000" : String).data.take 8 = ("00000000" : String).data ∧
    parse_ofx_date "00000000" = .ok none ∧
    parse_ofx_date "00000000120000" = .ok none :=
  ⟨by decide, (c5_sentinel_no_date "00000000" (by decide)).1,
    (c5_sentinel_no_date "00000000120000" (by decide)).1⟩

/-- `_do_post` returns the response and body when the status is not an
HTTP error status. -/
theorem do_post_ok (r : HttpResponse) (h : raiseForStatus r = false) :
    do_post r = .ok (r, r.body) := by
  rw [do_post, if_neg]
  rintro ⟨-, hr⟩
  rw [h] at hr
  cases hr

/-- `_do_post` raises on 4xx/5xx statuses. -/
theorem do_post_err (r : HttpResponse) (h : raiseForStatus r = true) :
    do_post r = .error "HTTPError" := by
  have hne : r.status ≠ 200 := by
    rw [raiseForStatus, Bool.and_eq_true, decide_eq_true_iff,
      decide_eq_true_iff] at h
    omega
  rw [do_post, if_pos ⟨hne, h⟩]

/-- C1: `Client.post` issues at most one retry POST; the retry happens
exactly when the first response is successful (a status
`raise_for_status` accepts, i.e. not a 4xx/5xx error), has a zero-length
body, and carries a `Set-Cookie` header; the retry carries that cookie
through the session; and in every other case — including a second empty
response after the retry — the final body is handed to the parser as-is
with no further POST. -/
theorem c1_retry_policy (server : Nat → HttpResponse) :
    (post server).posts ≤ 2 ∧
    ((post server).posts = 2 ↔
      raiseForStatus (server 0) = false ∧ (server 0).body.length = 0 ∧
        (server 0).setCookie.isSome = true) ∧
    ((post server).posts = 2 →
      (post server).retryCookie = (server 0).setCookie) ∧
    ((post server).posts = 2 → raiseForStatus (server 1) = false →
      (post server).result = .ok (server 1).body) ∧
    ((post server).posts = 1 → raiseForStatus (server 0) = false →
      (post server).result = .ok (server 0).body) := by
  by_cases hr0 : raiseForStatus (server 0) = true
  · rw [post, do_post_err _ hr0]
    simp [hr0]
  · rw [Bool.not_eq_true] at hr0
    rw [post, do_post_ok _ hr0]
    dsimp only
    by_cases hc : (server 0).body.length = 0 ∧
      (server 0).setCookie.isSome = true
    · rw [if_pos ⟨hc.1, hc.2⟩]
      by_cases hr1 : raiseForStatus (server 1) = true
      · rw [do_post_err _ hr1]
        dsimp only
        simp [hr0, hc.1, hc.2, hr1]
      · rw [Bool.not_eq_true] at hr1
        rw [do_post_ok _ hr1]
        dsimp only
        simp [hr0, hc.1, hc.2]
    · rw [if_neg hc]
      dsimp only
      simp [hr0, hc]

/-- Witness for `c1_retry_policy`: a 200 empty-body `Set-Cookie` first
response triggers exactly one retry carrying the cookie, and the second
body reaches the parser. -/
theorem c1_retry_policy_witness :
    (post (fun n => if n = 0 then ⟨200, some "SESSION=abc", ""⟩
      else ⟨200, none, "OFXDATA"⟩)).posts = 2 ∧
    (post (fun n => if n = 0 then ⟨200, some "SESSION=abc", ""⟩
      else ⟨200, none, "OFXDATA"⟩)).retryCookie = some "SESSION=abc" ∧
    (post (fun n => if n = 0 then ⟨200, some "SESSION=abc", ""⟩
      else ⟨200, none, "OFXDATA"⟩)).result = .ok "OFXDATA" := by
  have h := c1_retry_policy (fun n => if n = 0 then
    ⟨200, some "SESSION=abc", ""⟩ else ⟨200, none, "OFXDATA"⟩)
  have hp := h.2.1.mpr ⟨by decide, by decide, by decide⟩
  exact ⟨hp, (h.2.2.1 hp).trans rfl, (h.2.2.2.1 hp (by decide)).trans rfl⟩

set_option maxRecDepth 40000 in
/-- C2 counterexample: a bank-statement request body built by `_message`
contains no `CLTCOOKIE` element at all — the counter value is never
serialized into the request body. -/
theorem c2_no_cltcookie_counterexample :
    hasSub (bare_request clientInit "acct-1" ⟨2023, 1, 1, 0, 0, 0, 0⟩
      "CHECKING" "bank-9" "uid-one").2.data "CLTCOOKIE".data = false := by
  decide

set_option maxRecDepth 40000 in
/-- C2 (amended): the `Client` counter is seeded at 3 and `next_cookie`
increments it, returning the new value as a string — but no message
constructor calls `next_cookie`: `_message`/`_bare_request` leave the
counter unchanged, build a body that does not depend on it and contains no
`CLTCOOKIE` element, so no `CLTCOOKIE` values appear in successive
bank-statement requests; the bodies' `TRNUID` values are the per-message
generated uids and are distinct whenever the generator yields distinct
uids. -/
theorem c2_counter_and_trnuid :
    clientInit.cookie = 3 ∧
    (∀ c : ClientState, (next_cookie c).1.cookie = c.cookie + 1 ∧
      (next_cookie c).2 = toString (c.cookie + 1)) ∧
    (∀ (c : ClientState) (aid : String) (sd : DateTime) (at_ bid uid :
      String), (bare_request c aid sd at_ bid uid).1 = c) ∧
    (∀ (c c' : ClientState) (aid : String) (sd : DateTime) (at_ bid uid :
      String), (bare_request c aid sd at_ bid uid).2 =
        (bare_request c' aid sd at_ bid uid).2) ∧
    hasSub (bare_request clientInit "acct-1" ⟨2023, 1, 1, 0, 0, 0, 0⟩
      "CHECKING" "bank-9" "uid-one").2.data "CLTCOOKIE".data = false ∧
    tagContent (bare_request clientInit "acct-1" ⟨2023, 1, 1, 0, 0, 0, 0⟩
      "CHECKING" "bank-9" "uid-one").2 "TRNUID" = some "uid-one" ∧
    tagContent (bare_request clientInit "acct-1" ⟨2023, 1, 1, 0, 0, 0, 0⟩
      "CHECKING" "bank-9" "uid-two").2 "TRNUID" = some "uid-two" ∧
    "uid-one" ≠ "uid-two" :=
  ⟨rfl, fun _ => ⟨rfl, rfl⟩, fun _ _ _ _ _ _ => rfl, fun _ _ _ _ _ _ _ => rfl,
    by decide, by decide, by decide, by decide⟩

/-- C3 (code bug): a `STMTTRN` node with no `TRNAMT`, `DTPOSTED` or `FITID`
tag is parsed by `yofx`'s `parse_transaction` into a `Transaction` with
`amount`, `date` and `id` silently left at their defaults, with no parse
error raised — against the documented invariant that these fields are
mandatory. -/
theorem c3_missing_mandatory_fields_defaulted :
    parse_transaction (.mk "STMTTRN" none
        [.mk "TRNTYPE" (some "DEBIT") [], .mk "NAME" (some "Coffee Shop") []])
      = .ok ⟨"Coffee Shop", "debit", none, none, none, "", ""⟩ ∧
    (⟨"Coffee Shop", "debit", none, none, none, "", ""⟩ : Transaction).amount
      = defaultsTransaction.amount ∧
    (⟨"Coffee Shop", "debit", none, none, none, "", ""⟩ : Transaction).date
      = defaultsTransaction.date ∧
    (⟨"Coffee Shop", "debit", none, none, none, "", ""⟩ : Transaction).id
      = defaultsTransaction.id := by
  refine ⟨?_, rfl, rfl, rfl⟩
  rfl

/-- C6: the markup normalizer keeps at most one pending open leaf (the
fold state holds a single optional name), and on any tag token — closing
tag, opening tag or processing instruction — encountered while a pending
leaf exists, the step emits that leaf's synthesized closing tag
immediately before the token and clears the pending slot (re-filling it
only per the opening-leaf rule); in particular the fixture
`<OFX><MEMO>Coffee<DTPOSTED>20230101</OFX>`, whose document contains no
`</MEMO>` anywhere, normalizes with `</MEMO>` inserted immediately before
`<DTPOSTED>`. -/
theorem c6_markup_normalizer :
    clean_ofx_xml "<OFX><MEMO>Coffee<DTPOSTED>20230101</OFX>" =
      .ok "<OFX><MEMO>Coffee</MEMO><DTPOSTED>20230101</DTPOSTED></OFX>" ∧
    (∀ (closing : List String) (out t : String) (tok : List Char)
        (r : String × Option String),
      isTagTok tok = true →
      cleanStep closing (out, some t) tok = .ok r →
      r.1 = out ++ "</" ++ t ++ ">" ++ String.mk tok ∧
      (isOpenTok tok = false → r.2 = none)) := by
  constructor
  · rfl
  · intro closing out t tok r htag hstep
    simp only [cleanStep, htag, if_true] at hstep
    by_cases hop : isOpenTok tok = true
    · rw [if_pos hop] at hstep
      rcases hfind : findOpenName tok.length tok with _ | nm
      · rw [hfind] at hstep
        cases hstep
      · rw [hfind] at hstep
        injection hstep with h
        subst h
        refine ⟨by simp [String.append_assoc], ?_⟩
        intro hcon
        rw [hop] at hcon
        cases hcon
    · rw [if_neg hop] at hstep
      injection hstep with h
      subst h
      exact ⟨by simp [String.append_assoc], fun _ => rfl⟩

/-- Witness for `c6_markup_normalizer`: one step on the opening tag
`<DTPOSTED>` with `MEMO` pending emits `</MEMO>` first. -/
theorem c6_markup_normalizer_witness :
    isTagTok "<DTPOSTED>".data = true ∧
    cleanStep ["OFX"] ("pre", some "MEMO") "<DTPOSTED>".data =
      .ok ("pre</MEMO><DTPOSTED>", some "DTPOSTED") ∧
    ("pre</MEMO><DTPOSTED>" : String) =
      "pre" ++ "</" ++ "MEMO" ++ ">" ++ String.mk "<DTPOSTED>".data :=
  ⟨by decide, by rfl,
    (c6_markup_normalizer.2 ["OFX"] "pre" "MEMO" "<DTPOSTED>".data
      ("pre</MEMO><DTPOSTED>", some "DTPOSTED") (by decide) (by rfl)).1⟩

/-- Updating stores the new value and preserves other keys. -/
theorem odLookup_odInsert (l : List (String × String)) (k : String)
    (kv : String × String) :
    odLookup k (odInsert l kv) =
      if kv.1 == k then some kv.2 else odLookup k l := by
  induction l with
  | nil =>
      cases hb : kv.1 == k <;> simp [odInsert, odLookup, List.find?, hb]
  | cons p ps ih =>
      cases hb1 : p.1 == kv.1
      · cases hb2 : p.1 == k <;> cases hb3 : kv.1 == k
        · simp [odInsert, odLookup, List.find?, hb1, hb2, hb3] at ih ⊢
          exact ih
        · simp [odInsert, odLookup, List.find?, hb1, hb2, hb3] at ih ⊢
          exact ih
        · simp [odInsert, odLookup, List.find?, hb1, hb2, hb3]
        · exfalso
          rw [beq_iff_eq] at hb2 hb3
          rw [hb2, ← hb3] at hb1
          simp at hb1
      · have hp1 : p.1 = kv.1 := by rwa [beq_iff_eq] at hb1
        cases hb3 : kv.1 == k
        · have hb2 : (p.1 == k) = false := by rw [hp1]; exact hb3
          simp [odInsert, odLookup, List.find?, hb1, hb2, hb3]
        · simp [odInsert, odLookup, List.find?, hb1, hb3]

/-- Keys of an update: unchanged for a present key, appended for a new
one. -/
theorem odInsert_keys (l : List (String × String)) (kv : String × String) :
    (odInsert l kv).map Prod.fst =
      if l.any (fun p => p.1 == kv.1) then l.map Prod.fst
      else l.map Prod.fst ++ [kv.1] := by
  induction l with
  | nil => simp [odInsert]
  | cons p ps ih =>
      cases hb : p.1 == kv.1
      · simp only [odInsert, hb, Bool.false_eq_true, if_false, List.map_cons,
          List.any_cons, Bool.false_or, ih]
        split <;> simp
      · simp [odInsert, hb]
        exact (beq_iff_eq.mp hb).symm

/-- Updates keep the key list duplicate-free. -/
theorem odInsert_nodup (l : List (String × String)) (kv : String × String)
    (h : (l.map Prod.fst).Nodup) : ((odInsert l kv).map Prod.fst).Nodup := by
  rw [odInsert_keys]
  split
  · exact h
  · rename_i hany
    have hnot : kv.1 ∉ l.map Prod.fst := by
      simp only [List.any_eq_true, beq_iff_eq] at hany
      simp only [List.mem_map, not_exists]
      rintro q ⟨hq, hfst⟩
      exact hany ⟨q, hq, hfst⟩
    simp [List.nodup_append, h, hnot]

/-- The ordered-dict fold keeps the key list duplicate-free. -/
theorem foldl_odInsert_nodup (ps : List (String × String)) :
    ∀ acc : List (String × String), (acc.map Prod.fst).Nodup →
      (((ps.foldl odInsert acc)).map Prod.fst).Nodup := by
  induction ps with
  | nil => exact fun acc h => h
  | cons p ps ih =>
      intro acc h
      exact ih (odInsert acc p) (odInsert_nodup acc p h)

/-- The ordered-dict fold reads back the last written value per key. -/
theorem foldl_odInsert_lookup (ps : List (String × String)) :
    ∀ (acc : List (String × String)) (k : String),
      odLookup k (ps.foldl odInsert acc) =
        match lastVal k ps with
        | some v => some v
        | none => odLookup k acc := by
  induction ps with
  | nil => intro acc k; rfl
  | cons p ps ih =>
      intro acc k
      rw [List.foldl_cons, ih, lastVal]
      rcases lastVal k ps with _ | v
      · simp only
        rw [odLookup_odInsert]
        cases hb : p.1 == k <;> simp [hb]
      · simp only

/-- The ordered-dict fold keeps keys in first-occurrence order. -/
theorem foldl_odInsert_keys (ps : List (String × String)) :
    ∀ acc : List (String × String),
      (ps.foldl odInsert acc).map Prod.fst =
        firstKeys (acc.map Prod.fst) ps := by
  induction ps with
  | nil => intro acc; rfl
  | cons p ps ih =>
      intro acc
      rw [List.foldl_cons, ih, odInsert_keys, firstKeys]
      have hbr : (acc.map Prod.fst).any (fun x => x == p.1) =
          acc.any (fun q => q.1 == p.1) := by
        induction acc with
        | nil => rfl
        | cons q qs ihq => simp [List.any_cons, ihq]
      rw [← hbr]
      split <;> rfl

/-- C8 counterexample: two occurrences of the same header name collapse to
a single entry (an `OrderedDict` keeps one slot per key), so duplicate
entries are not retained. -/
theorem c8_duplicates_collapse_counterexample :
    extract_headers "A:1\nA:2\n<" = .ok [("A", "2")] ∧
    ([("A", "2")] : List (String × String)) ≠ [("A", "1"), ("A", "2")] :=
  ⟨by rfl, by decide⟩

/-- C8 (amended): header extraction returns an ordered mapping that
preserves first-occurrence header order with no duplicate keys; when the
same header name occurs more than once, the entries collapse into the
single slot at the name's first position, and the last written value wins
on read. -/
theorem c8_headers_ordered (s : String) (head : List Char)
    (ps : List (String × String))
    (hh : headSegment s = .ok head)
    (hp : parseHeaderLines (splitLines head) = .ok ps) :
    extract_headers s = .ok (ps.foldl odInsert []) ∧
    ((ps.foldl odInsert []).map Prod.fst).Nodup ∧
    (ps.foldl odInsert []).map Prod.fst = firstKeys [] ps ∧
    (∀ k, odLookup k (ps.foldl odInsert []) = lastVal k ps) := by
  refine ⟨?_, foldl_odInsert_nodup ps [] (by simp), foldl_odInsert_keys ps [],
    fun k => (foldl_odInsert_lookup ps [] k).trans ?_⟩
  · simp only [extract_headers, hh, hp, Except.bind, bind, pure]
  · cases lastVal k ps <;> rfl

/-- Witness for `c8_headers_ordered` on a two-header block. -/
theorem c8_headers_ordered_witness :
    headSegment "OLDFILEUID:1\r\nNEWFILEUID:2\n<OFX>" =
      .ok "OLDFILEUID:1\r\nNEWFILEUID:2\n".data ∧
    parseHeaderLines (splitLines "OLDFILEUID:1\r\nNEWFILEUID:2\n".data) =
      .ok [("OLDFILEUID", "1"), ("NEWFILEUID", "2")] ∧
    extract_headers "OLDFILEUID:1\r\nNEWFILEUID:2\n<OFX>" =
      .ok [("OLDFILEUID", "1"), ("NEWFILEUID", "2")] :=
  ⟨by rfl, by rfl,
    ((c8_headers_ordered "OLDFILEUID:1\r\nNEWFILEUID:2\n<OFX>"
      "OLDFILEUID:1\r\nNEWFILEUID:2\n".data
      [("OLDFILEUID", "1"), ("NEWFILEUID", "2")] (by rfl) (by rfl)).1).trans
      (by rfl)⟩

/-- C7 counterexample: an unrecognized `ENCODING` value makes
`decode_headers` raise (the local `encoding` is never assigned —
`NameError`), so header character-set resolution is not total. -/
theorem c7_unrecognized_encoding_counterexample :
    decode_headers [(asciiBytes "ENCODING", asciiBytes "EBCDIC")] =
      .error .nameError := by
  rfl

/-- C7 (amended): a missing or empty `ENCODING` falls back to best-effort
ASCII decoding with invalid-byte replacement and never fails;
`ENCODING=USASCII` with `CHARSET=1252` resolves to Windows-1252,
`CHARSET=8859-1` to Latin-1, and `ENCODING` of `UNICODE` or `UTF-8` to
UTF-8 — but an unrecognized `ENCODING` raises `NameError`, an unknown
`cp%s` codec raises `LookupError`, and the final decode is strict, so an
undecodable byte raises too. -/
theorem c7_charset_resolution :
    (∀ hs : List (List Byte × List Byte),
      odLookup "ENCODING" (asciiOd hs) = none →
      decode_headers hs = .ok (asciiOd hs)) ∧
    (∀ hs : List (List Byte × List Byte),
      odLookup "ENCODING" (asciiOd hs) = some "" →
      decode_headers hs = .ok (asciiOd hs)) ∧
    decode_headers [(asciiBytes "ENCODING", asciiBytes "USASCII"),
        (asciiBytes "CHARSET", asciiBytes "1252"),
        (asciiBytes "MEMO", [0x93])] =
      .ok [("ENCODING", "USASCII"), ("CHARSET", "1252"),
        ("MEMO", String.mk [Char.ofNat 0x201C])] ∧
    decode_headers [(asciiBytes "ENCODING", asciiBytes "USASCII"),
        (asciiBytes "CHARSET", asciiBytes "8859-1"),
        (asciiBytes "MEMO", [0x93])] =
      .ok [("ENCODING", "USASCII"), ("CHARSET", "8859-1"),
        ("MEMO", String.mk [Char.ofNat 0x93])] ∧
    decode_headers [(asciiBytes "ENCODING", asciiBytes "UNICODE"),
        (asciiBytes "MEMO", [0xC3, 0xA9])] =
      .ok [("ENCODING", "UNICODE"), ("MEMO", String.mk [Char.ofNat 0xE9])] ∧
    decode_headers [(asciiBytes "ENCODING", asciiBytes "UTF-8"),
        (asciiBytes "MEMO", [0xC3, 0xA9])] =
      .ok [("ENCODING", "UTF-8"), ("MEMO", String.mk [Char.ofNat 0xE9])] ∧
    decode_headers [(asciiBytes "ENCODING", asciiBytes "KOI8-R")] =
      .error .nameError ∧
    decode_headers [(asciiBytes "ENCODING", asciiBytes "USASCII"),
        (asciiBytes "CHARSET", asciiBytes "999")] = .error .lookupError ∧
    decode_headers [(asciiBytes "ENCODING", asciiBytes "USASCII"),
        (asciiBytes "MEMO", [0x81])] = .error .unicodeError := by
  refine ⟨?_, ?_, rfl, rfl, rfl, rfl, rfl, rfl, rfl⟩
  · intro hs h
    simp only [decode_headers, h]
  · intro hs h
    simp only [decode_headers, h, if_pos]

/-- Witness for `c7_charset_resolution` on a header block with no
`ENCODING` entry. -/
theorem c7_charset_resolution_witness :
    odLookup "ENCODING"
      (asciiOd [(asciiBytes "OFXHEADER", asciiBytes "100")]) = none ∧
    decode_headers [(asciiBytes "OFXHEADER", asciiBytes "100")] =
      .ok (asciiOd [(asciiBytes "OFXHEADER", asciiBytes "100")]) :=
  ⟨by rfl, c7_charset_resolution.1 _ (by rfl)⟩

end Ofx
